import Mathlib

/-!
Verification of the BLE chunked-transfer layer and per-peer session state
machine of webcam-direct-linux.

The development shallowly embeds, in Lean, the Rust code of
`src/ble/mobile_buffer.rs` (the `MobileBufferMap` chunk codec),
`src/ble/ble_requester.rs` (the `BlePublisher` chunker) and
`src/ble/mobile_comm.rs` (the `MobileComm` session state machine).
Rust `HashMap`s are embedded as functions into `Option`; `String` payloads as
`List Char` (the payloads the protocol moves are ASCII JSON, so byte indexing
and char indexing agree); fallible operations return `Except String` mirroring
`anyhow::Result`; `usize` arithmetic is `Nat` (a separate, explicitly partial
variant models the points where Rust would underflow-panic).
-/

namespace WebcamDirect

/-! ### Data model, from `src/ble/ble_cmd_api.rs` -/

/-- Enum `QueryApi` of `ble_cmd_api.rs`. -/
inductive QueryApi
  | HostInfo
deriving DecidableEq, Repr

/-- Enum `CmdApi` of `ble_cmd_api.rs`. -/
inductive CmdApi
  | MobileDisconnected
  | RegisterMobile
  | MobilePnpId
  | MobileSdpResponse
deriving DecidableEq, Repr

/-- Type alias `Address` of `ble_cmd_api.rs` (a peer's link-layer identity). -/
abbrev Address := String

/-- Struct `DataChunk` of `ble_cmd_api.rs`: one fragment of a logical payload,
tagged with the bytes remaining after it. -/
structure DataChunk where
  remain_len : Nat
  buffer : List Char
deriving DecidableEq, Repr

/-- Struct `QueryReq` of `ble_cmd_api.rs`. -/
structure QueryReq where
  query_type : QueryApi
  max_buffer_len : Nat
deriving Repr

/-- Struct `CommandReq` of `ble_cmd_api.rs`. -/
structure CommandReq where
  cmd_type : CmdApi
  payload : DataChunk
deriving Repr

/-- Pointwise update of a functional map, embedding `HashMap::insert`
(`v = some _`) and `HashMap::remove` (`v = none`). -/
def updMap {α β : Type} [DecidableEq α] (f : α → Option β) (k : α) (v : Option β) :
    α → Option β :=
  fun x => if x = k then v else f x

/-! ### The chunk codec, from `src/ble/mobile_buffer.rs` -/

/-- Struct `BufferCursor` of `mobile_buffer.rs`: per-address transient state,
a writer map keyed by command type and a reader map keyed by query type. -/
structure BufferCursor where
  writer : CmdApi → Option (List Char)
  reader : QueryApi → Option Nat

/-- The `Default` instance of `BufferCursor`: both maps empty. -/
def BufferCursor.default : BufferCursor :=
  { writer := fun _ => none, reader := fun _ => none }

/-- Struct `MobileBufferMap` of `mobile_buffer.rs`. -/
structure MobileBufferMap where
  mobile_buffer_status : Address → Option BufferCursor
  buffer_size_limit : Nat

/-- `MobileBufferMap::new`. -/
def MobileBufferMap.new (buffer_max_len : Nat) : MobileBufferMap :=
  { mobile_buffer_status := fun _ => none, buffer_size_limit := buffer_max_len }

/-- `MobileBufferMap::add_mobile` (the warning on an existing entry is a log
side effect only; the insert happens either way). -/
def MobileBufferMap.add_mobile (m : MobileBufferMap) (addr : Address) : MobileBufferMap :=
  { m with mobile_buffer_status := updMap m.mobile_buffer_status addr (some BufferCursor.default) }

/-- `MobileBufferMap::contains_mobile`. -/
def MobileBufferMap.contains_mobile (m : MobileBufferMap) (addr : Address) : Bool :=
  (m.mobile_buffer_status addr).isSome

/-- `MobileBufferMap::remove_mobile`. -/
def MobileBufferMap.remove_mobile (m : MobileBufferMap) (addr : Address) : MobileBufferMap :=
  { m with mobile_buffer_status := updMap m.mobile_buffer_status addr none }

/-- Writing the cursor of one address back into the map; this is the net
state effect of Rust's `get_cursors` (`entry(addr).or_insert(default)`)
followed by in-place mutation of the returned `&mut BufferCursor`. -/
def MobileBufferMap.set_cursor (m : MobileBufferMap) (addr : Address) (c : BufferCursor) :
    MobileBufferMap :=
  { m with mobile_buffer_status := updMap m.mobile_buffer_status addr (some c) }

/-- `MobileBufferMap::get_next_data_chunk` of `mobile_buffer.rs`, lines
145-184.  The reader cursor for `query.query_type` is initialized to
`data.length` if absent (`entry(..).or_insert(data.len())`); the returned
chunk is the slice `[chunk_start, chunk_end)`; the cursor is removed once the
remaining length reaches 0, or defensively whenever
`max_buffer_len > buffer_size_limit`. -/
def MobileBufferMap.get_next_data_chunk (m : MobileBufferMap) (addr : Address)
    (query : QueryReq) (data : List Char) : DataChunk × MobileBufferMap :=
  let cursor := (m.mobile_buffer_status addr).getD BufferCursor.default
  let remain0 := (cursor.reader query.query_type).getD data.length
  let chunk_start := data.length - remain0
  let chunk_end := min (chunk_start + query.max_buffer_len) data.length
  let remain1 := if chunk_end = data.length then 0 else remain0 - query.max_buffer_len
  let data_chunk : DataChunk :=
    { remain_len := remain1, buffer := (data.drop chunk_start).take (chunk_end - chunk_start) }
  let reader1 :=
    if remain1 = 0 ∨ query.max_buffer_len > m.buffer_size_limit then
      updMap cursor.reader query.query_type none
    else
      updMap cursor.reader query.query_type (some remain1)
  (data_chunk, m.set_cursor addr { cursor with reader := reader1 })

/-- `MobileBufferMap::get_complete_buffer` of `mobile_buffer.rs`, lines
213-243.  The writer cursor for `cmd.cmd_type` starts empty if absent
(`entry(..).or_default()`); if the appended length would exceed
`buffer_size_limit` the cursor is removed and `none` ("aborted") returned;
otherwise the payload is appended and, on a final chunk (`remain_len = 0`),
the accumulated buffer is returned and the cursor removed. -/
def MobileBufferMap.get_complete_buffer (m : MobileBufferMap) (addr : Address)
    (cmd : CommandReq) : Option (List Char) × MobileBufferMap :=
  let cursor := (m.mobile_buffer_status addr).getD BufferCursor.default
  let curr_buffer := (cursor.writer cmd.cmd_type).getD []
  if curr_buffer.length + cmd.payload.buffer.length > m.buffer_size_limit then
    (none, m.set_cursor addr { cursor with writer := updMap cursor.writer cmd.cmd_type none })
  else
    let curr1 := curr_buffer ++ cmd.payload.buffer
    if cmd.payload.remain_len = 0 then
      (some curr1, m.set_cursor addr { cursor with writer := updMap cursor.writer cmd.cmd_type none })
    else
      (none, m.set_cursor addr { cursor with writer := updMap cursor.writer cmd.cmd_type (some curr1) })

/-- The reader cursor visible for `(addr, q)`; an absent address reads as the
default (empty) cursor, exactly as `get_cursors` would materialize it. -/
def readerOf (m : MobileBufferMap) (addr : Address) (q : QueryApi) : Option Nat :=
  ((m.mobile_buffer_status addr).getD BufferCursor.default).reader q

/-- The writer cursor visible for `(addr, k)`. -/
def writerOf (m : MobileBufferMap) (addr : Address) (k : CmdApi) : Option (List Char) :=
  ((m.mobile_buffer_status addr).getD BufferCursor.default).writer k

/-- The caller loop around `get_next_data_chunk` (as in the repository's own
tests): call repeatedly for one `(address, query_type)` until the returned
chunk's `remain_len` is 0, collecting the chunks.  `fuel` bounds the number of
calls. -/
def chunkAll : Nat → MobileBufferMap → Address → QueryReq → List Char →
    List DataChunk × MobileBufferMap
  | 0, m, _, _, _ => ([], m)
  | fuel + 1, m, addr, query, data =>
    let step := m.get_next_data_chunk addr query data
    if step.1.remain_len = 0 then
      ([step.1], step.2)
    else
      let rest := chunkAll fuel step.2 addr query data
      (step.1 :: rest.1, rest.2)

/-- Feeding a list of chunks, in order, into `get_complete_buffer` for one
`(address, cmd_type)`; the result is the final call's return value. -/
def feedAll : MobileBufferMap → Address → CmdApi → List DataChunk →
    Option (List Char) × MobileBufferMap
  | m, _, _, [] => (none, m)
  | m, addr, ct, c :: cs =>
    let step := m.get_complete_buffer addr { cmd_type := ct, payload := c }
    match cs with
    | [] => step
    | _ :: _ => feedAll step.2 addr ct cs

/-- Concatenation of the payloads of a chunk list. -/
def chunksJoin (cs : List DataChunk) : List Char :=
  (cs.map DataChunk.buffer).flatten

/-- A chunk sequence as the drain loop terminates it: every chunk but the
last has a non-zero remaining length, the last has remaining length 0. -/
inductive GoodSeq : List DataChunk → Prop
  | last (c : DataChunk) : c.remain_len = 0 → GoodSeq [c]
  | cons (c : DataChunk) (cs : List DataChunk) :
      c.remain_len ≠ 0 → GoodSeq cs → GoodSeq (c :: cs)

theorem GoodSeq.ne_nil {cs : List DataChunk} (h : GoodSeq cs) : cs ≠ [] := by
  cases h <;> simp

/-! ### Basic lemmas about the two codec operations -/

/-- `get_next_data_chunk` touches only the reader map: every writer cursor of
every address is untouched. -/
theorem get_next_data_chunk_writer_eq (m : MobileBufferMap) (addr : Address)
    (query : QueryReq) (data : List Char) (a : Address) (k : CmdApi) :
    writerOf (m.get_next_data_chunk addr query data).2 a k = writerOf m a k := by
  simp only [MobileBufferMap.get_next_data_chunk, writerOf, MobileBufferMap.set_cursor, updMap]
  by_cases h : a = addr <;> simp [updMap, h]

/-- `get_complete_buffer` touches only the writer map: every reader cursor of
every address is untouched. -/
theorem get_complete_buffer_reader_eq (m : MobileBufferMap) (addr : Address)
    (cmd : CommandReq) (a : Address) (q : QueryApi) :
    readerOf (m.get_complete_buffer addr cmd).2 a q = readerOf m a q := by
  simp only [MobileBufferMap.get_complete_buffer, readerOf, MobileBufferMap.set_cursor, updMap]
  split <;> [skip; split] <;> by_cases h : a = addr <;> simp [updMap, h]

/-- `get_next_data_chunk` leaves the configured buffer size limit unchanged. -/
theorem get_next_data_chunk_limit (m : MobileBufferMap) (addr : Address)
    (query : QueryReq) (data : List Char) :
    (m.get_next_data_chunk addr query data).2.buffer_size_limit = m.buffer_size_limit := rfl

/-- `get_complete_buffer` leaves the configured buffer size limit unchanged. -/
theorem get_complete_buffer_limit (m : MobileBufferMap) (addr : Address)
    (cmd : CommandReq) :
    (m.get_complete_buffer addr cmd).2.buffer_size_limit = m.buffer_size_limit := by
  simp only [MobileBufferMap.get_complete_buffer, MobileBufferMap.set_cursor]
  split <;> [rfl; split <;> rfl]

/-- One non-final `get_next_data_chunk` step: with `r` bytes still to send,
`maxLen < r` and `maxLen` within the configured limit, the call returns the
`maxLen`-byte slice starting at `data.length - r` and leaves a reader cursor
holding `r - maxLen`. -/
theorem get_next_data_chunk_mid (m : MobileBufferMap) (addr : Address) (qt : QueryApi)
    (maxLen : Nat) (data : List Char) (r : Nat)
    (hr : (readerOf m addr qt).getD data.length = r)
    (hlt : maxLen < r) (hrlen : r ≤ data.length) (hlim : maxLen ≤ m.buffer_size_limit) :
    ∃ m₁, m.get_next_data_chunk addr ⟨qt, maxLen⟩ data
        = ({ remain_len := r - maxLen,
             buffer := (data.drop (data.length - r)).take maxLen }, m₁)
      ∧ readerOf m₁ addr qt = some (r - maxLen)
      ∧ m₁.buffer_size_limit = m.buffer_size_limit
      ∧ (∀ a k, writerOf m₁ a k = writerOf m a k) := by
  refine ⟨(m.get_next_data_chunk addr ⟨qt, maxLen⟩ data).2, ?_, ?_, ?_, ?_⟩
  · simp only [readerOf] at hr
    simp only [MobileBufferMap.get_next_data_chunk, hr]
    have hend : min (data.length - r + maxLen) data.length = data.length - r + maxLen := by
      omega
    have hne : ¬ (data.length - r + maxLen = data.length) := by omega
    simp [hend, hne]
  · simp only [readerOf] at hr
    simp only [MobileBufferMap.get_next_data_chunk, hr, readerOf,
      MobileBufferMap.set_cursor, updMap]
    have hend : min (data.length - r + maxLen) data.length = data.length - r + maxLen := by
      omega
    have hne : ¬ (data.length - r + maxLen = data.length) := by omega
    have hr0 : ¬ (r - maxLen = 0) := by omega
    have hgt : ¬ (maxLen > m.buffer_size_limit) := by omega
    simp [updMap, hend, hne, hr0, hgt]
  · exact get_next_data_chunk_limit ..
  · exact fun a k => get_next_data_chunk_writer_eq ..

/-- The final `get_next_data_chunk` step: with `r` bytes still to send and
`r ≤ maxLen`, the call returns the remaining `r`-byte tail with
`remain_len = 0` and clears the reader cursor. -/
theorem get_next_data_chunk_last (m : MobileBufferMap) (addr : Address) (qt : QueryApi)
    (maxLen : Nat) (data : List Char) (r : Nat)
    (hr : (readerOf m addr qt).getD data.length = r)
    (hge : r ≤ maxLen) (hrlen : r ≤ data.length) :
    ∃ m₁, m.get_next_data_chunk addr ⟨qt, maxLen⟩ data
        = ({ remain_len := 0, buffer := data.drop (data.length - r) }, m₁)
      ∧ readerOf m₁ addr qt = none
      ∧ m₁.buffer_size_limit = m.buffer_size_limit
      ∧ (∀ a k, writerOf m₁ a k = writerOf m a k) := by
  refine ⟨(m.get_next_data_chunk addr ⟨qt, maxLen⟩ data).2, ?_, ?_, ?_, ?_⟩
  · simp only [readerOf] at hr
    simp only [MobileBufferMap.get_next_data_chunk, hr]
    have hend : min (data.length - r + maxLen) data.length = data.length := by omega
    have htake : data.length - (data.length - r) = r := by omega
    simp [hend, htake]
  · simp only [readerOf] at hr
    simp only [MobileBufferMap.get_next_data_chunk, hr, readerOf,
      MobileBufferMap.set_cursor, updMap]
    have hend : min (data.length - r + maxLen) data.length = data.length := by omega
    simp [updMap, hend]
  · exact get_next_data_chunk_limit ..
  · exact fun a k => get_next_data_chunk_writer_eq ..

/-- One non-final `get_complete_buffer` step: within the limit and with a
non-zero `remain_len`, the payload is appended to the writer cursor and no
buffer is returned yet. -/
theorem get_complete_buffer_step (m : MobileBufferMap) (addr : Address) (ct : CmdApi)
    (c : DataChunk) (curr : List Char)
    (hcur : (writerOf m addr ct).getD [] = curr)
    (hle : curr.length + c.buffer.length ≤ m.buffer_size_limit)
    (hne : c.remain_len ≠ 0) :
    ∃ m₁, m.get_complete_buffer addr ⟨ct, c⟩ = (none, m₁)
      ∧ writerOf m₁ addr ct = some (curr ++ c.buffer)
      ∧ m₁.buffer_size_limit = m.buffer_size_limit := by
  simp only [writerOf] at hcur
  refine ⟨(m.get_complete_buffer addr ⟨ct, c⟩).2, ?_, ?_, ?_⟩
  · simp only [MobileBufferMap.get_complete_buffer, hcur]
    have hgt : ¬ (curr.length + c.buffer.length > m.buffer_size_limit) := by omega
    simp [hgt, hne]
  · simp only [MobileBufferMap.get_complete_buffer, hcur, writerOf,
      MobileBufferMap.set_cursor, updMap]
    have hgt : ¬ (curr.length + c.buffer.length > m.buffer_size_limit) := by omega
    simp [updMap, hgt, hne]
  · exact get_complete_buffer_limit ..

/-- The final `get_complete_buffer` step: within the limit and with
`remain_len = 0`, the accumulated buffer plus the final payload is returned
and the writer cursor cleared. -/
theorem get_complete_buffer_last (m : MobileBufferMap) (addr : Address) (ct : CmdApi)
    (c : DataChunk) (curr : List Char)
    (hcur : (writerOf m addr ct).getD [] = curr)
    (hle : curr.length + c.buffer.length ≤ m.buffer_size_limit)
    (h0 : c.remain_len = 0) :
    ∃ m₁, m.get_complete_buffer addr ⟨ct, c⟩ = (some (curr ++ c.buffer), m₁)
      ∧ writerOf m₁ addr ct = none
      ∧ m₁.buffer_size_limit = m.buffer_size_limit := by
  simp only [writerOf] at hcur
  refine ⟨(m.get_complete_buffer addr ⟨ct, c⟩).2, ?_, ?_, ?_⟩
  · simp only [MobileBufferMap.get_complete_buffer, hcur]
    have hgt : ¬ (curr.length + c.buffer.length > m.buffer_size_limit) := by omega
    simp [hgt, h0]
  · simp only [MobileBufferMap.get_complete_buffer, hcur, writerOf,
      MobileBufferMap.set_cursor, updMap]
    have hgt : ¬ (curr.length + c.buffer.length > m.buffer_size_limit) := by omega
    simp [updMap, hgt, h0]
  · exact get_complete_buffer_limit ..

/-- Draining a transfer with `r` bytes left (cursor agreeing with `r`, and
`r` within both the data and the configured limit) emits a `GoodSeq` of chunks
whose concatenation is exactly the last `r` bytes of `data`; writer cursors
and the limit are untouched. -/
theorem chunkAll_spec (addr : Address) (qt : QueryApi) (maxLen : Nat) (data : List Char)
    (hmax : 1 ≤ maxLen) :
    ∀ fuel r m, (readerOf m addr qt).getD data.length = r → 1 ≤ r → r ≤ data.length →
      data.length ≤ m.buffer_size_limit → r ≤ fuel →
      ∃ cs m₁, chunkAll fuel m addr ⟨qt, maxLen⟩ data = (cs, m₁)
        ∧ GoodSeq cs
        ∧ chunksJoin cs = data.drop (data.length - r)
        ∧ (∀ a k, writerOf m₁ a k = writerOf m a k)
        ∧ m₁.buffer_size_limit = m.buffer_size_limit := by
  intro fuel
  induction fuel with
  | zero => intro r m _ h1 _ _ hfuel; omega
  | succ fuel ih =>
    intro r m hr h1 hrlen hlimit hfuel
    rcases le_or_lt r maxLen with hge | hlt
    · obtain ⟨m₁, heq, _, hlim₁, hwr₁⟩ :=
        get_next_data_chunk_last m addr qt maxLen data r hr hge hrlen
      refine ⟨[{ remain_len := 0, buffer := data.drop (data.length - r) }], m₁, ?_, ?_, ?_, hwr₁, hlim₁⟩
      · simp [chunkAll, heq]
      · exact GoodSeq.last _ rfl
      · simp [chunksJoin]
    · obtain ⟨m₁, heq, hrd₁, hlim₁, hwr₁⟩ :=
        get_next_data_chunk_mid m addr qt maxLen data r hr hlt hrlen (by omega)
      obtain ⟨cs, m₂, heq₂, hgood, hjoin, hwr₂, hlim₂⟩ :=
        ih (r - maxLen) m₁ (by rw [hrd₁]; rfl) (by omega) (by omega)
          (by rw [hlim₁]; exact hlimit) (by omega)
      refine ⟨{ remain_len := r - maxLen,
                buffer := (data.drop (data.length - r)).take maxLen } :: cs, m₂, ?_, ?_, ?_, ?_, ?_⟩
      · have hne : ¬ (r - maxLen = 0) := by omega
        simp [chunkAll, heq, hne, heq₂]
      · exact GoodSeq.cons _ _ (by simp; omega) hgood
      · simp only [chunksJoin, List.map_cons, List.flatten_cons] at hjoin ⊢
        rw [hjoin]
        have hidx : data.length - (r - maxLen) = (data.length - r) + maxLen := by omega
        rw [hidx, List.drop_take_append_drop]
      · intro a k; rw [hwr₂, hwr₁]
      · rw [hlim₂, hlim₁]

/-- Feeding a `GoodSeq` of chunks whose total size fits in the limit on top
of an existing writer cursor `curr` accumulates them all and returns
`curr ++ chunksJoin cs` on the final chunk. -/
theorem feedAll_spec (addr : Address) (ct : CmdApi) :
    ∀ cs, GoodSeq cs → ∀ m curr, (writerOf m addr ct).getD [] = curr →
      curr.length + (chunksJoin cs).length ≤ m.buffer_size_limit →
      (feedAll m addr ct cs).1 = some (curr ++ chunksJoin cs) := by
  intro cs hgood
  induction hgood with
  | last c h0 =>
    intro m curr hcur hle
    obtain ⟨m₁, heq, _, _⟩ := get_complete_buffer_last m addr ct c curr hcur
      (by simpa [chunksJoin] using hle) h0
    simp [feedAll, heq, chunksJoin]
  | cons c cs hne hgood ih =>
    intro m curr hcur hle
    have hlen : curr.length + c.buffer.length ≤ m.buffer_size_limit := by
      simp only [chunksJoin, List.map_cons, List.flatten_cons, List.length_append] at hle
      omega
    obtain ⟨m₁, heq, hw₁, hlim₁⟩ := get_complete_buffer_step m addr ct c curr hcur hlen hne
    obtain ⟨d, ds, rfl⟩ : ∃ d ds, cs = d :: ds := by
      cases cs with
      | nil => exact absurd rfl hgood.ne_nil
      | cons d ds => exact ⟨d, ds, rfl⟩
    have := ih m₁ (curr ++ c.buffer) (by rw [hw₁]; rfl)
      (by simp only [chunksJoin, List.map_cons, List.flatten_cons, List.length_append] at hle ⊢
          rw [hlim₁]; omega)
    have hstep : feedAll m addr ct (c :: d :: ds)
        = feedAll (m.get_complete_buffer addr { cmd_type := ct, payload := c }).2 addr ct (d :: ds) :=
      rfl
    rw [hstep, heq]
    show (feedAll m₁ addr ct (d :: ds)).1 = some (curr ++ chunksJoin (c :: d :: ds))
    rw [this]
    simp [chunksJoin, List.append_assoc]

/-- The reader cursors of a fresh `MobileBufferMap` are all empty. -/
theorem readerOf_new (l : Nat) (a : Address) (q : QueryApi) :
    readerOf (MobileBufferMap.new l) a q = none := rfl

/-- The writer cursors of a fresh `MobileBufferMap` are all empty. -/
theorem writerOf_new (l : Nat) (a : Address) (k : CmdApi) :
    writerOf (MobileBufferMap.new l) a k = none := rfl

/-- One unfolding of the drain loop. -/
theorem chunkAll_succ (fuel : Nat) (m : MobileBufferMap) (addr : Address)
    (query : QueryReq) (data : List Char) :
    chunkAll (fuel + 1) m addr query data =
      if (m.get_next_data_chunk addr query data).1.remain_len = 0 then
        ([(m.get_next_data_chunk addr query data).1],
          (m.get_next_data_chunk addr query data).2)
      else
        ((m.get_next_data_chunk addr query data).1
            :: (chunkAll fuel (m.get_next_data_chunk addr query data).2 addr query data).1,
          (chunkAll fuel (m.get_next_data_chunk addr query data).2 addr query data).2) := rfl

/-- Claim C1 (amended).  Round trip: for every payload whose length is at most the
configured `buffer_size_limit` and every max-chunk-length at least 1,
splitting via repeated `get_next_data_chunk` calls for one
`(address, query_type)` until the returned chunk's `remain_len` is 0, and
feeding each produced chunk in order into `get_complete_buffer` for one
`(address, cmd_type)`, makes `get_complete_buffer` return the original
payload byte-for-byte on the final chunk. -/
theorem round_trip_within_limit (data : List Char) (maxLen limit : Nat)
    (addr addr2 : Address) (qt : QueryApi) (ct : CmdApi)
    (hmax : 1 ≤ maxLen) (hlen : data.length ≤ limit) :
    (feedAll
      (chunkAll (data.length + 1) (MobileBufferMap.new limit) addr ⟨qt, maxLen⟩ data).2
      addr2 ct
      (chunkAll (data.length + 1) (MobileBufferMap.new limit) addr ⟨qt, maxLen⟩ data).1).1
      = some data := by
  by_cases hd : data = []
  · subst hd
    by_cases h2 : addr2 = addr <;>
      simp [chunkAll, feedAll, MobileBufferMap.get_next_data_chunk,
        MobileBufferMap.get_complete_buffer, MobileBufferMap.new,
        MobileBufferMap.set_cursor, BufferCursor.default, updMap, h2]
  · have hlen1 : 1 ≤ data.length := by
      cases data with
      | nil => exact absurd rfl hd
      | cons x xs => simp
    obtain ⟨cs, m₁, heq, hgood, hjoin, hwr, hlim⟩ :=
      chunkAll_spec addr qt maxLen data hmax (data.length + 1) data.length
        (MobileBufferMap.new limit) rfl hlen1 le_rfl hlen (by omega)
    rw [heq]
    have hjoin' : chunksJoin cs = data := by
      simpa using hjoin
    have hfeed := feedAll_spec addr2 ct cs hgood m₁ [] (by rw [hwr, writerOf_new]; rfl)
      (by rw [hjoin', hlim]; simpa [MobileBufferMap.new] using hlen)
    rw [hfeed, hjoin', List.nil_append]

/-- Claim C1, counterexample to the unamended claim: with `buffer_size_limit = 5`, a
6-byte payload is chunked fine but `get_complete_buffer` aborts instead of
returning it, so the round trip does not return the original payload. -/
theorem round_trip_limit_counterexample :
    (feedAll
      (chunkAll 7 (MobileBufferMap.new 5) "AA" ⟨QueryApi.HostInfo, 6⟩
        (List.replicate 6 'A')).2
      "BB" CmdApi.RegisterMobile
      (chunkAll 7 (MobileBufferMap.new 5) "AA" ⟨QueryApi.HostInfo, 6⟩
        (List.replicate 6 'A')).1).1
      ≠ some (List.replicate 6 'A') := by decide

/-- Claim C1, witness: the round trip at payload `"hi"`, max-chunk-length 1, limit 2. -/
theorem round_trip_within_limit_witness :
    (feedAll
      (chunkAll 3 (MobileBufferMap.new 2) "AA" ⟨QueryApi.HostInfo, 1⟩ ['h', 'i']).2
      "BB" CmdApi.RegisterMobile
      (chunkAll 3 (MobileBufferMap.new 2) "AA" ⟨QueryApi.HostInfo, 1⟩ ['h', 'i']).1).1
      = some ['h', 'i'] :=
  round_trip_within_limit ['h', 'i'] 1 2 "AA" "BB" QueryApi.HostInfo CmdApi.RegisterMobile
    (by decide) (by decide)

/-- Slicing a replicate list: the `k`-byte chunk starting `r` bytes from the
end, for `k ≤ r ≤ n`. -/
theorem replicate_slice (n r k : Nat) (a : Char) (h : r ≤ n) (hk : k ≤ r) :
    ((List.replicate n a).drop ((List.replicate n a).length - r)).take k
      = List.replicate k a := by
  rw [List.length_replicate, List.drop_replicate, List.take_replicate]
  congr 1
  omega

/-- The final `r`-byte tail of a replicate list, for `r ≤ n`. -/
theorem replicate_tail (n r : Nat) (a : Char) (h : r ≤ n) :
    (List.replicate n a).drop ((List.replicate n a).length - r) = List.replicate r a := by
  rw [List.length_replicate, List.drop_replicate]
  congr 1
  omega

/-- Claim C8.  Chunk count: with `buffer_size_limit >= 1024`, draining a 5000-byte
payload at max-chunk-length 1024 for one `(address, query_type)` produces
exactly 5 chunks, the successive 1024-byte slices (904 bytes for the last),
with remaining lengths 3976, 2952, 1928, 904 and 0. -/
theorem chunk_count_5000_1024 (limit : Nat) (h : 1024 ≤ limit) (addr : Address) :
    (chunkAll 5001 (MobileBufferMap.new limit) addr ⟨QueryApi.HostInfo, 1024⟩
        (List.replicate 5000 'A')).1
      = [⟨3976, List.replicate 1024 'A'⟩, ⟨2952, List.replicate 1024 'A'⟩,
         ⟨1928, List.replicate 1024 'A'⟩, ⟨904, List.replicate 1024 'A'⟩,
         ⟨0, List.replicate 904 'A'⟩]
    ∧ ((chunkAll 5001 (MobileBufferMap.new limit) addr ⟨QueryApi.HostInfo, 1024⟩
        (List.replicate 5000 'A')).1.map DataChunk.remain_len
      = [3976, 2952, 1928, 904, 0])
    ∧ ((chunkAll 5001 (MobileBufferMap.new limit) addr ⟨QueryApi.HostInfo, 1024⟩
        (List.replicate 5000 'A')).1.map (fun c => c.buffer.length)
      = [1024, 1024, 1024, 1024, 904]) := by
  obtain ⟨m₁, e₁, hr₁, hl₁, _⟩ :=
    get_next_data_chunk_mid (MobileBufferMap.new limit) addr QueryApi.HostInfo 1024
      (List.replicate 5000 'A') 5000
      (by rw [readerOf_new, Option.getD_none, List.length_replicate])
      (by norm_num) (by rw [List.length_replicate]) h
  obtain ⟨m₂, e₂, hr₂, hl₂, _⟩ :=
    get_next_data_chunk_mid m₁ addr QueryApi.HostInfo 1024
      (List.replicate 5000 'A') 3976 (by rw [hr₁, Option.getD_some])
      (by norm_num) (by rw [List.length_replicate]; norm_num) (by rw [hl₁]; exact h)
  obtain ⟨m₃, e₃, hr₃, hl₃, _⟩ :=
    get_next_data_chunk_mid m₂ addr QueryApi.HostInfo 1024
      (List.replicate 5000 'A') 2952 (by rw [hr₂, Option.getD_some])
      (by norm_num) (by rw [List.length_replicate]; norm_num) (by rw [hl₂, hl₁]; exact h)
  obtain ⟨m₄, e₄, hr₄, hl₄, _⟩ :=
    get_next_data_chunk_mid m₃ addr QueryApi.HostInfo 1024
      (List.replicate 5000 'A') 1928 (by rw [hr₃, Option.getD_some])
      (by norm_num) (by rw [List.length_replicate]; norm_num)
      (by rw [hl₃, hl₂, hl₁]; exact h)
  obtain ⟨m₅, e₅, hr₅, hl₅, _⟩ :=
    get_next_data_chunk_last m₄ addr QueryApi.HostInfo 1024
      (List.replicate 5000 'A') 904 (by rw [hr₄, Option.getD_some])
      (by norm_num) (by rw [List.length_replicate]; norm_num)
  have e₁' : (MobileBufferMap.new limit).get_next_data_chunk addr ⟨QueryApi.HostInfo, 1024⟩
      (List.replicate 5000 'A') = (⟨3976, List.replicate 1024 'A'⟩, m₁) := by
    rw [e₁, replicate_slice 5000 5000 1024 'A' le_rfl (by norm_num),
      show (5000 : Nat) - 1024 = 3976 from by norm_num]
  have e₂' : m₁.get_next_data_chunk addr ⟨QueryApi.HostInfo, 1024⟩
      (List.replicate 5000 'A') = (⟨2952, List.replicate 1024 'A'⟩, m₂) := by
    rw [e₂, replicate_slice 5000 3976 1024 'A' (by norm_num) (by norm_num),
      show (3976 : Nat) - 1024 = 2952 from by norm_num]
  have e₃' : m₂.get_next_data_chunk addr ⟨QueryApi.HostInfo, 1024⟩
      (List.replicate 5000 'A') = (⟨1928, List.replicate 1024 'A'⟩, m₃) := by
    rw [e₃, replicate_slice 5000 2952 1024 'A' (by norm_num) (by norm_num),
      show (2952 : Nat) - 1024 = 1928 from by norm_num]
  have e₄' : m₃.get_next_data_chunk addr ⟨QueryApi.HostInfo, 1024⟩
      (List.replicate 5000 'A') = (⟨904, List.replicate 1024 'A'⟩, m₄) := by
    rw [e₄, replicate_slice 5000 1928 1024 'A' (by norm_num) (by norm_num),
      show (1928 : Nat) - 1024 = 904 from by norm_num]
  have e₅' : m₄.get_next_data_chunk addr ⟨QueryApi.HostInfo, 1024⟩
      (List.replicate 5000 'A') = (⟨0, List.replicate 904 'A'⟩, m₅) := by
    rw [e₅, replicate_tail 5000 904 'A' (by norm_num)]
  have main :
      (chunkAll 5001 (MobileBufferMap.new limit) addr ⟨QueryApi.HostInfo, 1024⟩
        (List.replicate 5000 'A')).1
      = [⟨3976, List.replicate 1024 'A'⟩, ⟨2952, List.replicate 1024 'A'⟩,
         ⟨1928, List.replicate 1024 'A'⟩, ⟨904, List.replicate 1024 'A'⟩,
         ⟨0, List.replicate 904 'A'⟩] := by
    rw [show (5001 : Nat) = 5000 + 1 from rfl, chunkAll_succ, e₁',
      if_neg (by decide : ¬ ((⟨3976, List.replicate 1024 'A'⟩ : DataChunk).remain_len = 0))]
    dsimp only
    rw [show (5000 : Nat) = 4999 + 1 from rfl, chunkAll_succ, e₂',
      if_neg (by decide : ¬ ((⟨2952, List.replicate 1024 'A'⟩ : DataChunk).remain_len = 0))]
    dsimp only
    rw [show (4999 : Nat) = 4998 + 1 from rfl, chunkAll_succ, e₃',
      if_neg (by decide : ¬ ((⟨1928, List.replicate 1024 'A'⟩ : DataChunk).remain_len = 0))]
    dsimp only
    rw [show (4998 : Nat) = 4997 + 1 from rfl, chunkAll_succ, e₄',
      if_neg (by decide : ¬ ((⟨904, List.replicate 1024 'A'⟩ : DataChunk).remain_len = 0))]
    dsimp only
    rw [show (4997 : Nat) = 4996 + 1 from rfl, chunkAll_succ, e₅',
      if_pos (by decide : (⟨0, List.replicate 904 'A'⟩ : DataChunk).remain_len = 0)]
  refine ⟨main, ?_, ?_⟩
  · rw [main]
    simp only [List.map_cons, List.map_nil]
  · rw [main]
    simp only [List.map_cons, List.map_nil, List.length_replicate]

/-- Claim C8, witness: the chunk-count theorem at the concrete limit 5000 (the value
the repository's own tests construct `MobileBufferMap` with). -/
theorem chunk_count_5000_1024_witness :
    (chunkAll 5001 (MobileBufferMap.new 5000) "AA" ⟨QueryApi.HostInfo, 1024⟩
        (List.replicate 5000 'A')).1
      = [⟨3976, List.replicate 1024 'A'⟩, ⟨2952, List.replicate 1024 'A'⟩,
         ⟨1928, List.replicate 1024 'A'⟩, ⟨904, List.replicate 1024 'A'⟩,
         ⟨0, List.replicate 904 'A'⟩]
    ∧ ((chunkAll 5001 (MobileBufferMap.new 5000) "AA" ⟨QueryApi.HostInfo, 1024⟩
        (List.replicate 5000 'A')).1.map DataChunk.remain_len
      = [3976, 2952, 1928, 904, 0])
    ∧ ((chunkAll 5001 (MobileBufferMap.new 5000) "AA" ⟨QueryApi.HostInfo, 1024⟩
        (List.replicate 5000 'A')).1.map (fun c => c.buffer.length)
      = [1024, 1024, 1024, 1024, 904]) :=
  chunk_count_5000_1024 5000 (by norm_num) "AA"

/-- Claim C5.  Buffer limit abort: whenever the accumulated writer buffer for
`(addr, cmd_type)` plus the incoming payload would exceed
`buffer_size_limit`, `get_complete_buffer` returns `none` (not the payload)
and clears the writer cursor for that key. -/
theorem buffer_limit_abort (m : MobileBufferMap) (addr : Address) (cmd : CommandReq)
    (h : ((writerOf m addr cmd.cmd_type).getD []).length + cmd.payload.buffer.length
          > m.buffer_size_limit) :
    (m.get_complete_buffer addr cmd).1 = none
    ∧ writerOf (m.get_complete_buffer addr cmd).2 addr cmd.cmd_type = none := by
  simp only [writerOf] at h
  constructor
  · simp only [MobileBufferMap.get_complete_buffer]
    rw [if_pos h]
  · simp only [MobileBufferMap.get_complete_buffer, writerOf,
      MobileBufferMap.set_cursor, updMap]
    rw [if_pos h]
    simp [updMap]

/-- Claim C5, witness: limit 9999, a 10000-byte payload arriving as a single final
chunk is rejected (the repository's own `test_maximum_buffer_size`). -/
theorem buffer_limit_abort_witness :
    ((MobileBufferMap.new 9999).get_complete_buffer "AA"
      ⟨CmdApi.MobileDisconnected, ⟨0, List.replicate 10000 'A'⟩⟩).1 = none
    ∧ writerOf ((MobileBufferMap.new 9999).get_complete_buffer "AA"
      ⟨CmdApi.MobileDisconnected, ⟨0, List.replicate 10000 'A'⟩⟩).2 "AA"
      CmdApi.MobileDisconnected = none :=
  buffer_limit_abort (MobileBufferMap.new 9999) "AA"
    ⟨CmdApi.MobileDisconnected, ⟨0, List.replicate 10000 'A'⟩⟩
    (by rw [writerOf_new, Option.getD_none, List.length_replicate]
        show (9999 : Nat) < 0 + 10000
        norm_num)

/-- Claim C9.  Unknown addresses never fail at the buffer map: both operations
create the per-address cursor entry on demand, so after either call
`contains_mobile` answers `true` even though `add_mobile` was never called
for that address (and neither operation has an error outcome tied to the
address being absent). -/
theorem buffer_map_auto_entry (m : MobileBufferMap) (addr : Address)
    (query : QueryReq) (data : List Char) (cmd : CommandReq) :
    (m.get_next_data_chunk addr query data).2.contains_mobile addr = true
    ∧ (m.get_complete_buffer addr cmd).2.contains_mobile addr = true := by
  constructor
  · simp [MobileBufferMap.get_next_data_chunk, MobileBufferMap.contains_mobile,
      MobileBufferMap.set_cursor, updMap]
  · simp only [MobileBufferMap.get_complete_buffer, MobileBufferMap.contains_mobile,
      MobileBufferMap.set_cursor, updMap]
    split
    · simp [updMap]
    · split <;> simp [updMap]

/-- Claim C6, counterexample: there is no reader/writer mode exclusion.  With a
writer cursor left active for `("AA", RegisterMobile)` by an unfinished
accumulate, a `get_next_data_chunk` call for the same address succeeds
(returns an ordinary chunk — the function has no failure outcome at all, and
no `WrongBufferMode` error exists in the code), after which a reader cursor
and a writer cursor are simultaneously active for the address. -/
theorem wrong_buffer_mode_counterexample :
    writerOf ((MobileBufferMap.new 5000).get_complete_buffer "AA"
        ⟨CmdApi.RegisterMobile, ⟨5, ['A', 'B']⟩⟩).2 "AA" CmdApi.RegisterMobile
      = some ['A', 'B']
    ∧ (((MobileBufferMap.new 5000).get_complete_buffer "AA"
        ⟨CmdApi.RegisterMobile, ⟨5, ['A', 'B']⟩⟩).2.get_next_data_chunk "AA"
        ⟨QueryApi.HostInfo, 1⟩ ['x', 'y', 'z']).1 = ⟨2, ['x']⟩
    ∧ readerOf (((MobileBufferMap.new 5000).get_complete_buffer "AA"
        ⟨CmdApi.RegisterMobile, ⟨5, ['A', 'B']⟩⟩).2.get_next_data_chunk "AA"
        ⟨QueryApi.HostInfo, 1⟩ ['x', 'y', 'z']).2 "AA" QueryApi.HostInfo = some 2
    ∧ writerOf (((MobileBufferMap.new 5000).get_complete_buffer "AA"
        ⟨CmdApi.RegisterMobile, ⟨5, ['A', 'B']⟩⟩).2.get_next_data_chunk "AA"
        ⟨QueryApi.HostInfo, 1⟩ ['x', 'y', 'z']).2 "AA" CmdApi.RegisterMobile
      = some ['A', 'B'] := by
  refine ⟨?_, ?_, ?_, ?_⟩ <;> decide

/-- Claim C6 (amended).  Reader cursors are keyed by `QueryApi` and writer cursors
by `CmdApi` — two disjoint key spaces inside one `BufferCursor` — so the two
modes never exclude each other: `get_next_data_chunk` always returns a chunk
and leaves every writer cursor of every address unchanged, and
`get_complete_buffer` leaves every reader cursor of every address unchanged
(its `none` result means "incomplete" or "aborted", never a mode error; no
`WrongBufferMode` error exists in the code). -/
theorem cursor_modes_independent (m : MobileBufferMap) (addr : Address)
    (query : QueryReq) (data : List Char) (cmd : CommandReq)
    (a : Address) (q : QueryApi) (k : CmdApi) :
    writerOf (m.get_next_data_chunk addr query data).2 a k = writerOf m a k
    ∧ readerOf (m.get_complete_buffer addr cmd).2 a q = readerOf m a q :=
  ⟨get_next_data_chunk_writer_eq m addr query data a k,
   get_complete_buffer_reader_eq m addr cmd a q⟩

/-! ### The publisher chunker, from `src/ble/ble_requester.rs` -/

/-- Fuel-driven embedding of Rust's `slice::chunks(n)`: successive `n`-sized
pieces, the last possibly shorter.  `slice::chunks` panics on `n = 0`; this
model returns `[]` there (the theorems below never use `n = 0`). -/
def listChunksFuel {α : Type} (n : Nat) : Nat → List α → List (List α)
  | 0, _ => []
  | _, [] => []
  | fuel + 1, x :: xs =>
    if n = 0 then [] else (x :: xs).take n :: listChunksFuel n fuel ((x :: xs).drop n)

/-- Rust's `buffer.as_bytes().chunks(max_buffer_len)`; `l.length` steps of
fuel always suffice since each step with `n ≥ 1` consumes at least one
element. -/
def listChunks {α : Type} (n : Nat) (l : List α) : List (List α) :=
  listChunksFuel n l.length l

/-- `BlePublisher::publish` of `ble_requester.rs`, lines 94-107: the sequence
of `DataChunk`s sent to the broadcast subscribers.  Each piece of the buffer
is tagged `remain_len - piece.length` where `remain_len` is the *input*
chunk's field (the Rust code does not decrement it cumulatively across the
loop).  Rust's `usize` subtraction would underflow-panic when a piece is
longer than `remain_len`; `Nat` subtraction truncates there, and the theorem
below evaluates the model only where no underflow occurs. -/
def BlePublisher.publishChunks (max_buffer_len : Nat) (data : DataChunk) : List DataChunk :=
  (listChunks max_buffer_len data.buffer).map
    (fun chunk => { remain_len := data.remain_len - chunk.length, buffer := chunk })

/-- Claim C2, evaluated at the failing input.  `BlePublisher::publish` with
`max_buffer_len = 2` and the chunk `{ remain_len := 4, buffer := "ABCD" }`
emits `[{2, "AB"}, {2, "CD"}]`: every emitted chunk carries
`remain_len = 2`, so the published sequence never reaches 0 on its final
chunk — the remaining length is computed from the input's `remain_len` and
each piece's own length, not decremented across pieces.  (The
`get_next_data_chunk` side of the invariant is established separately by
`chunkAll_spec`/`chunk_count_5000_1024`.) -/
theorem publish_remain_len_never_reaches_zero :
    BlePublisher.publishChunks 2 ⟨4, ['A', 'B', 'C', 'D']⟩
      = [⟨2, ['A', 'B']⟩, ⟨2, ['C', 'D']⟩]
    ∧ ∀ c ∈ BlePublisher.publishChunks 2 ⟨4, ['A', 'B', 'C', 'D']⟩,
        c.remain_len ≠ 0 := by
  refine ⟨?_, ?_⟩ <;> decide

/-! ### Panic-freedom of `get_next_data_chunk` (C10) -/

/-- The largest value of a 64-bit `usize`. -/
def USIZE_MAX : Nat := 2 ^ 64 - 1

/-- Partiality-aware variant of `get_next_data_chunk`: `none` exactly when
the Rust function would panic, in the order Rust evaluates —
`data.len() - remain` (line 157) underflows unless `remain ≤ data.len()`;
`chunk_start + max_buffer_len` (line 158) overflow-panics in a debug build
unless it fits a `usize` (in a release build it wraps instead, making
`chunk_end < chunk_start` and the slice panic whenever `chunk_start <
data.len()`; the model follows the checked profile, which over-approximates
release — they differ only at `chunk_start = data.len()`, i.e. a stored
remaining length of 0, which no call ever stores); and the in-place
`remain -= max_buffer_len` (line 164, taken only when
`chunk_end ≠ data.len()`) underflows unless `max_buffer_len ≤ remain`.
Under these guards the slice bounds satisfy
`chunk_start ≤ chunk_end ≤ data.len()` by construction, and for ASCII data
every byte index is a char boundary, so no other panic point remains; the
result is then the total model's. -/
def MobileBufferMap.get_next_data_chunk? (m : MobileBufferMap) (addr : Address)
    (query : QueryReq) (data : List Char) : Option (DataChunk × MobileBufferMap) :=
  let cursor := (m.mobile_buffer_status addr).getD BufferCursor.default
  let remain0 := (cursor.reader query.query_type).getD data.length
  if remain0 ≤ data.length then
    let chunk_start := data.length - remain0
    if chunk_start + query.max_buffer_len ≤ USIZE_MAX then
      let chunk_end := min (chunk_start + query.max_buffer_len) data.length
      if chunk_end = data.length ∨ query.max_buffer_len ≤ remain0 then
        some (m.get_next_data_chunk addr query data)
      else none
    else none
  else none

/-- A sequence of `get_next_data_chunk` calls for one `(address, query_type)`
over the same `data`, with one max-chunk-length per call; `none` as soon as
one call panics. -/
def iterNextChunks (addr : Address) (qt : QueryApi) (data : List Char) :
    List Nat → MobileBufferMap → Option MobileBufferMap
  | [], m => some m
  | maxLen :: rest, m =>
    match m.get_next_data_chunk? addr ⟨qt, maxLen⟩ data with
    | none => none
    | some (_, m₁) => iterNextChunks addr qt data rest m₁

/-- Reading an updated key gives the update. -/
theorem updMap_same {α β : Type} [DecidableEq α] (f : α → Option β) (k : α)
    (v : Option β) : updMap f k v k = v := by
  simp [updMap]

/-- The reader cursor for the queried key after a `get_next_data_chunk` call:
cleared when the new remaining length is 0 or `maxLen` exceeds the limit,
updated to the new remaining length otherwise. -/
theorem get_next_data_chunk_reader_eq (m : MobileBufferMap) (addr : Address)
    (qt : QueryApi) (maxLen : Nat) (data : List Char) :
    readerOf (m.get_next_data_chunk addr ⟨qt, maxLen⟩ data).2 addr qt
      = if (if min (data.length - (readerOf m addr qt).getD data.length + maxLen) data.length
              = data.length
            then 0 else (readerOf m addr qt).getD data.length - maxLen) = 0
          ∨ maxLen > m.buffer_size_limit
        then none
        else some (if min (data.length - (readerOf m addr qt).getD data.length + maxLen)
              data.length = data.length
            then 0 else (readerOf m addr qt).getD data.length - maxLen) := by
  simp only [MobileBufferMap.get_next_data_chunk, readerOf, MobileBufferMap.set_cursor]
  rw [updMap_same, Option.getD_some]
  split <;> dsimp only <;> split <;> rw [updMap_same]

/-- After a `get_next_data_chunk` call, the reader cursor for its key is
either cleared or holds the updated remaining length, which never exceeds the
starting remaining length. -/
theorem get_next_data_chunk_reader_after (m : MobileBufferMap) (addr : Address)
    (qt : QueryApi) (maxLen : Nat) (data : List Char) :
    readerOf (m.get_next_data_chunk addr ⟨qt, maxLen⟩ data).2 addr qt = none
    ∨ ∃ r₁, readerOf (m.get_next_data_chunk addr ⟨qt, maxLen⟩ data).2 addr qt = some r₁
        ∧ r₁ ≤ (readerOf m addr qt).getD data.length := by
  rw [get_next_data_chunk_reader_eq]
  split <;> split
  · exact Or.inl rfl
  · exact Or.inr ⟨0, rfl, Nat.zero_le _⟩
  · exact Or.inl rfl
  · exact Or.inr ⟨_, rfl, Nat.sub_le _ _⟩

/-- Claim C10, counterexample to the unamended claim: its quantified domain
(max-chunk-lengths of at least 1, nothing more) contains a panicking input.
Over a 3-byte payload, a first call at max-chunk-length 1 leaves
`chunk_start = 1`; a second call at max-chunk-length `usize::MAX` (which is
at least 1) computes `chunk_start + max_buffer_len = usize::MAX + 1` — an
overflow panic in a debug build, and in release a wrap to `chunk_end = 0 <
chunk_start` making the slice `data[1..0]` panic — so the panic-aware model
returns `none`. -/
theorem get_next_data_chunk_overflow :
    iterNextChunks "AA" QueryApi.HostInfo ['a', 'b', 'c'] [1, USIZE_MAX]
      (MobileBufferMap.new 50) = none
    ∧ 1 ≤ USIZE_MAX := by
  constructor
  · rfl
  · decide

/-- Claim C10 (amended).  Totality of `get_next_data_chunk` under its
intended precondition: every sequence of calls for a fixed
`(address, query_type)` that all pass the same `data` and max-chunk-lengths
`l` with `1 ≤ l` and `data.length + l` within `usize` (so the line-158
addition cannot overflow — automatic in a real program where both operands
are in-range `usize` values with `l` an MTU), started from a state whose
reader cursor for that key (if any) does not exceed `data.length` — in
particular from any fresh or never-shrunk state — never hits a `usize`
underflow, an overflowing addition, or an out-of-bounds slice: every call
returns a value. -/
theorem get_next_data_chunk_no_panic (maxLens : List Nat) (m : MobileBufferMap)
    (addr : Address) (qt : QueryApi) (data : List Char)
    (hmax : ∀ l ∈ maxLens, 1 ≤ l)
    (hbound : ∀ l ∈ maxLens, data.length + l ≤ USIZE_MAX)
    (hinv : ∀ r, readerOf m addr qt = some r → r ≤ data.length) :
    (iterNextChunks addr qt data maxLens m).isSome = true := by
  induction maxLens generalizing m with
  | nil => simp [iterNextChunks]
  | cons maxLen rest ih =>
    have hr0 : (readerOf m addr qt).getD data.length ≤ data.length := by
      cases hq : readerOf m addr qt with
      | none => simp
      | some r => simpa using hinv r hq
    have hb : data.length + maxLen ≤ USIZE_MAX :=
      hbound maxLen (List.mem_cons_self _ _)
    have hov : data.length - (readerOf m addr qt).getD data.length + maxLen
        ≤ USIZE_MAX := by
      omega
    have hguard : min (data.length - (readerOf m addr qt).getD data.length + maxLen)
          data.length = data.length
        ∨ maxLen ≤ (readerOf m addr qt).getD data.length := by
      omega
    have hsome : m.get_next_data_chunk? addr ⟨qt, maxLen⟩ data
        = some (m.get_next_data_chunk addr ⟨qt, maxLen⟩ data) := by
      simp only [MobileBufferMap.get_next_data_chunk?, readerOf] at hr0 hov hguard ⊢
      rw [if_pos hr0, if_pos hov, if_pos hguard]
    simp only [iterNextChunks, hsome]
    exact ih (m.get_next_data_chunk addr ⟨qt, maxLen⟩ data).2
      (fun l hl => hmax l (List.mem_cons_of_mem _ hl))
      (fun l hl => hbound l (List.mem_cons_of_mem _ hl))
      (fun r hr => by
        rcases get_next_data_chunk_reader_after m addr qt maxLen data with hnone | ⟨r₁, hr₁, hle⟩
        · rw [hnone] at hr; cases hr
        · rw [hr₁] at hr; cases hr; omega)

/-- Claim C10, witness: three calls at max-chunk-length 2 over a 3-byte payload from
a fresh map return values (no panic). -/
theorem get_next_data_chunk_no_panic_witness :
    (iterNextChunks "AA" QueryApi.HostInfo ['a', 'b', 'c'] [2, 2, 2]
      (MobileBufferMap.new 5)).isSome = true :=
  get_next_data_chunk_no_panic [2, 2, 2] (MobileBufferMap.new 5) "AA" QueryApi.HostInfo
    ['a', 'b', 'c'] (by decide) (by decide) (fun r hr => Option.noConfusion hr)

/-! ### The session state machine, from `src/ble/mobile_comm.rs`

The collaborators are embedded at their interfaces: the `AppDataStore` trait
as a record of operations over an abstract store type `Db`
(`get_mobile` takes `&self`, so only `add_mobile` can change the store), the
`serde_json::from_str::<MobileSchema>` call as an explicit parse function,
and `VDevice` as an opaque handle (its contents never inspected here).  The
per-call `serde_json::from_slice::<BufferComm>` decoding of an incoming
chunk is represented by passing the already-decoded `BufferComm`; every
theorem below concerns paths on which that decoding is not reached or has
succeeded.  The `sdp_caller` broadcast channel and `vdev_builder` fields are
omitted: none of the modeled operations (`mobile_disconnected`,
`get_host_info`, `set_register_mobile`, `set_mobile_pnp_id`) touches them. -/

/-- Struct `VideoProp` of `app_data/schemas.rs`. -/
structure VideoProp where
  resolution : Nat × Nat
  fps : Nat
deriving DecidableEq, Repr

/-- Struct `CameraInfo` of `app_data/schemas.rs`. -/
structure CameraInfo where
  name : String
  format : List VideoProp
deriving DecidableEq, Repr

/-- Struct `MobileSchema` of `app_data/schemas.rs`. -/
structure MobileSchema where
  id : String
  name : String
  cameras : List CameraInfo
deriving DecidableEq, Repr

/-- A `PathBuf` key of the virtual-device maps. -/
abbrev VPath := String

/-- Opaque virtual-device handle (`vdevice_builder::VDevice`); the session
logic never inspects it. -/
structure VDevice where
deriving DecidableEq, Repr

/-- `VDeviceMap = HashMap<PathBuf, VDevice>`, as the association list the
disconnect handler iterates over. -/
abbrev VDeviceMap := List (VPath × VDevice)

/-- Struct `BufferComm` of `mobile_comm.rs` (the JSON envelope a chunk is
decoded into). -/
structure BufferComm where
  remain_len : Nat
  payload : List Char
deriving DecidableEq, Repr

/-- Enum `MobileDataState` of `mobile_comm.rs`. -/
inductive MobileDataState
  | MobileConnected
  | ReadingHostInfo
  | WriteMobileInfo
  | WriteMobileId
  | SaveMobileData (mobile : MobileSchema)
  | ReadyToStream (virtual_devices : VDeviceMap)
deriving DecidableEq, Repr

/-- Enum `CommBufferStatus` of `mobile_comm.rs`. -/
inductive CommBufferStatus
  | RemainLen (n : Nat)
  | CurrentBuffer (s : List Char)
deriving DecidableEq, Repr

/-- Struct `ConnectedMobileData` of `mobile_comm.rs`. -/
structure ConnectedMobileData where
  mobile_state : MobileDataState
  buffer_status : Option CommBufferStatus
deriving DecidableEq, Repr

/-- The mutable state of `MobileComm` (minus the omitted collaborator
fields, see the section comment). -/
structure MobileCommState where
  mobiles_connected : Address → Option ConnectedMobileData
  vdevice_index : VPath → Option Address
  host_info : List Char

/-- `HashMap::insert` on the session table. -/
def MobileCommState.insertConn (st : MobileCommState) (addr : Address)
    (cd : ConnectedMobileData) : MobileCommState :=
  { st with mobiles_connected := updMap st.mobiles_connected addr (some cd) }

/-- `HashMap::remove` on the session table. -/
def MobileCommState.removeConn (st : MobileCommState) (addr : Address) : MobileCommState :=
  { st with mobiles_connected := updMap st.mobiles_connected addr none }

/-- The `AppDataStore` trait of `mobile_comm.rs` at its interface, over an
abstract store type: `add_mobile` may change the store, `get_mobile` reads it
(`&self` in Rust). -/
structure AppDataStoreOps (Db : Type) where
  add_mobile : Db → MobileSchema → Except String Db
  get_mobile : Db → List Char → Except String MobileSchema

/-- `MobileComm::mobile_disconnected` of `mobile_comm.rs`, lines 145-168:
remove the session; if it was `ReadyToStream`, also remove each of its
virtual-device paths from `vdevice_index` (a missing path is only logged);
an absent session is an error and changes nothing. -/
def mobile_disconnected (st : MobileCommState) (addr : Address) :
    Except String Unit × MobileCommState :=
  match st.mobiles_connected addr with
  | some connected_data =>
    let st₁ := st.removeConn addr
    match connected_data.mobile_state with
    | MobileDataState.ReadyToStream virtual_devices =>
      (Except.ok (),
        { st₁ with vdevice_index :=
            virtual_devices.foldl (fun idx pv => updMap idx pv.1 none) st₁.vdevice_index })
    | _ => (Except.ok (), st₁)
  | none => (Except.error "Mobile not found", st)

/-- `MobileComm::get_host_info` of `mobile_comm.rs`, lines 170-234: an
unknown address is first inserted as `ReadingHostInfo` with the full length
remaining; a session in `ReadingHostInfo` is served the next slice of
`host_info` and, once the read drains everything
(`max_buffer_len >= remain`), moves to `WriteMobileInfo`; any other session
state is an error.  The returned `BufferComm` stands for the
`serde_json::to_vec(&ble_comm)` payload. -/
def get_host_info (st : MobileCommState) (addr : Address) (max_buffer_len : Nat) :
    Except String BufferComm × MobileCommState :=
  let total_len := st.host_info.length
  let st₀ :=
    if (st.mobiles_connected addr).isSome then st
    else st.insertConn addr
      ⟨MobileDataState.ReadingHostInfo, some (CommBufferStatus.RemainLen total_len)⟩
  match st₀.mobiles_connected addr with
  | some ⟨MobileDataState.ReadingHostInfo, some (CommBufferStatus.RemainLen remain)⟩ =>
    let initial_len := total_len - remain
    if max_buffer_len ≥ remain then
      (Except.ok ⟨0, (st.host_info.drop initial_len).take (total_len - initial_len)⟩,
        st₀.insertConn addr
          ⟨MobileDataState.WriteMobileInfo, some (CommBufferStatus.CurrentBuffer [])⟩)
    else
      (Except.ok ⟨remain - max_buffer_len, (st.host_info.drop initial_len).take max_buffer_len⟩,
        st₀.insertConn addr
          ⟨MobileDataState.ReadingHostInfo,
            some (CommBufferStatus.RemainLen (remain - max_buffer_len))⟩)
  | some _ => (Except.error "Mobile is not reading host info", st₀)
  | none => (Except.error "Mobile not found in connected devices", st₀)

/-- `MobileComm::set_register_mobile` of `mobile_comm.rs`, lines 236-279: an
absent session is an error (`ok_or_else` + `?` — no auto-creation); a session
not in `WriteMobileInfo` with an accumulation buffer is an error; otherwise
the payload is appended in place, and on a final chunk the buffer is parsed
and the mobile persisted via `add_mobile`, moving to `WriteMobileId` (a parse
or store failure propagates after the in-place append). -/
def set_register_mobile {Db : Type} (ops : AppDataStoreOps Db)
    (parse_mobile : List Char → Except String MobileSchema)
    (st : MobileCommState) (db : Db) (addr : Address) (data : BufferComm) :
    Except String Unit × MobileCommState × Db :=
  match st.mobiles_connected addr with
  | none => (Except.error "Mobile not found in connected devices", st, db)
  | some cd =>
    match cd.mobile_state, cd.buffer_status with
    | MobileDataState.WriteMobileInfo, some (CommBufferStatus.CurrentBuffer current_buffer) =>
      let current₁ := current_buffer ++ data.payload
      if data.remain_len = 0 then
        match parse_mobile current₁ with
        | Except.error e =>
          (Except.error e,
            st.insertConn addr
              ⟨MobileDataState.WriteMobileInfo, some (CommBufferStatus.CurrentBuffer current₁)⟩,
            db)
        | Except.ok mobile =>
          match ops.add_mobile db mobile with
          | Except.error e =>
            (Except.error e,
              st.insertConn addr
                ⟨MobileDataState.WriteMobileInfo, some (CommBufferStatus.CurrentBuffer current₁)⟩,
              db)
          | Except.ok db₁ =>
            (Except.ok (),
              st.insertConn addr
                ⟨MobileDataState.WriteMobileId, some (CommBufferStatus.CurrentBuffer [])⟩,
              db₁)
      else
        (Except.ok (),
          st.insertConn addr
            ⟨MobileDataState.WriteMobileInfo, some (CommBufferStatus.CurrentBuffer current₁)⟩,
          db)
    | _, _ => (Except.error "Mobile is not writing mobile info", st, db)

/-- `MobileComm::set_mobile_pnp_id` of `mobile_comm.rs`, lines 281-340: an
unknown address is first inserted as `WriteMobileId` with an empty buffer
(an already-registered mobile reconnecting); a session in `WriteMobileId`
accumulates the payload and, on a final chunk, looks the id up via
`get_mobile`, moving to `SaveMobileData` on success and erroring (after the
in-place append) when the id is unknown; any other session state is an
error. -/
def set_mobile_pnp_id {Db : Type} (ops : AppDataStoreOps Db)
    (st : MobileCommState) (db : Db) (addr : Address) (data : BufferComm) :
    Except String Unit × MobileCommState :=
  let st₀ :=
    if (st.mobiles_connected addr).isSome then st
    else st.insertConn addr
      ⟨MobileDataState.WriteMobileId, some (CommBufferStatus.CurrentBuffer [])⟩
  match st₀.mobiles_connected addr with
  | some ⟨MobileDataState.WriteMobileId, some (CommBufferStatus.CurrentBuffer current_buffer)⟩ =>
    let current₁ := current_buffer ++ data.payload
    if data.remain_len = 0 then
      match ops.get_mobile db current₁ with
      | Except.ok mobile =>
        (Except.ok (), st₀.insertConn addr ⟨MobileDataState.SaveMobileData mobile, none⟩)
      | Except.error _ =>
        (Except.error "Mobile not found",
          st₀.insertConn addr
            ⟨MobileDataState.WriteMobileId, some (CommBufferStatus.CurrentBuffer current₁)⟩)
    else
      (Except.ok (),
        st₀.insertConn addr
          ⟨MobileDataState.WriteMobileId, some (CommBufferStatus.CurrentBuffer current₁)⟩)
  | some _ => (Except.error "Mobile is not writing mobile id", st₀)
  | none => (Except.error "Mobile not found in connected devices", st₀)

/-- The partiality model is not vacuous: the same-`data` hypothesis of the
no-panic theorem is load-bearing.  After one call over a 4-byte payload at
max-chunk-length 1 (leaving a reader cursor of 3), a call that passes a
2-byte payload instead computes `data.len() - remain` with `remain = 3 > 2` —
a `usize` underflow in Rust — and the panic-aware model returns `none`. -/
theorem get_next_data_chunk_shrunk_data_none :
    (((MobileBufferMap.new 50).get_next_data_chunk "AA" ⟨QueryApi.HostInfo, 1⟩
        ['a', 'b', 'c', 'd']).2.get_next_data_chunk? "AA" ⟨QueryApi.HostInfo, 1⟩
        ['a', 'b']) = none := by
  rfl

/-- A concrete empty session table (no peer has connected yet), used by the
concrete instances below. -/
def emptyCommState : MobileCommState :=
  { mobiles_connected := fun _ => none, vdevice_index := fun _ => none,
    host_info := ['h', 'o', 's', 't'] }

/-- A concrete trivial data store over `Unit`, used by the concrete
instances below. -/
def unitStore : AppDataStoreOps Unit :=
  { add_mobile := fun db _ => Except.ok db, get_mobile := fun _ _ => Except.error "nf" }

/-- Claim C3, counterexample: a complete `RegisterMobile` command arriving for an
address with no session does not create one — it returns the not-found error
and the session table still has no entry for the address (so the claim's
"any query or command creates a fresh session" fails for `RegisterMobile`). -/
theorem register_mobile_no_auto_session :
    (set_register_mobile unitStore (fun _ => Except.error "parse") emptyCommState ()
        "AA" ⟨0, []⟩).1 = Except.error "Mobile not found in connected devices"
    ∧ ((set_register_mobile unitStore (fun _ => Except.error "parse") emptyCommState ()
        "AA" ⟨0, []⟩).2.1.mobiles_connected "AA") = none :=
  ⟨rfl, rfl⟩

/-- Claim C3 (amended).  Session auto-creation on first contact holds for the
`HostInfo` query — which never fails for an unknown address and installs a
session in `ReadingHostInfo` (already advanced to `WriteMobileInfo` when the
single read drains the whole payload) — and for the `MobilePnpId` command,
which installs the session in `WriteMobileId` with an empty buffer and then
processes the chunk within the same call: the session is left in
`WriteMobileId` holding the appended payload for a partial or unknown-id
chunk, and advanced to `SaveMobileData` when the final chunk's id is found
via `get_mobile`; but not for `RegisterMobile`, which returns the not-found
error and leaves the table without the address. -/
theorem session_auto_creation_amended (st : MobileCommState) (addr : Address)
    (h : st.mobiles_connected addr = none) :
    (∀ maxLen, ∃ b, (get_host_info st addr maxLen).1 = Except.ok b)
    ∧ (∀ maxLen, (get_host_info st addr maxLen).2.mobiles_connected addr
        = if st.host_info.length ≤ maxLen
          then some ⟨MobileDataState.WriteMobileInfo,
            some (CommBufferStatus.CurrentBuffer [])⟩
          else some ⟨MobileDataState.ReadingHostInfo,
            some (CommBufferStatus.RemainLen (st.host_info.length - maxLen))⟩)
    ∧ (∀ (Db : Type) (ops : AppDataStoreOps Db)
        (parse : List Char → Except String MobileSchema) (db : Db) (data : BufferComm),
        set_register_mobile ops parse st db addr data
          = (Except.error "Mobile not found in connected devices", st, db))
    ∧ (∀ (Db : Type) (ops : AppDataStoreOps Db) (db : Db) (data : BufferComm),
        (set_mobile_pnp_id ops st db addr data).2.mobiles_connected addr
          = if data.remain_len = 0 then
              (match ops.get_mobile db data.payload with
               | Except.ok mobile => some ⟨MobileDataState.SaveMobileData mobile, none⟩
               | Except.error _ => some ⟨MobileDataState.WriteMobileId,
                   some (CommBufferStatus.CurrentBuffer data.payload)⟩)
            else some ⟨MobileDataState.WriteMobileId,
              some (CommBufferStatus.CurrentBuffer data.payload)⟩) := by
  have hsc : ∀ (s : MobileCommState) (cd : ConnectedMobileData),
      (s.insertConn addr cd).mobiles_connected addr = some cd := by
    intro s cd
    simp [MobileCommState.insertConn, updMap_same]
  refine ⟨?_, ?_, ?_, ?_⟩
  · intro maxLen
    simp only [get_host_info, h, Option.isSome_none, Bool.false_eq_true, if_false, hsc]
    split
    · exact ⟨_, rfl⟩
    · exact ⟨_, rfl⟩
  · intro maxLen
    simp only [get_host_info, h, Option.isSome_none, Bool.false_eq_true, if_false, hsc]
    split
    · exact hsc _ _
    · exact hsc _ _
  · intro Db ops parse db data
    simp only [set_register_mobile, h]
  · intro Db ops db data
    simp only [set_mobile_pnp_id, h, Option.isSome_none, Bool.false_eq_true, if_false, hsc,
      List.nil_append]
    split
    · cases ops.get_mobile db data.payload with
      | ok mobile => exact hsc _ _
      | error e => exact hsc _ _
    · exact hsc _ _

/-- Claim C3, witness: the amended auto-creation theorem at the empty session
table. -/
theorem session_auto_creation_amended_witness :
    (∀ maxLen, ∃ b, (get_host_info emptyCommState "AA" maxLen).1 = Except.ok b)
    ∧ (∀ maxLen, (get_host_info emptyCommState "AA" maxLen).2.mobiles_connected "AA"
        = if emptyCommState.host_info.length ≤ maxLen
          then some ⟨MobileDataState.WriteMobileInfo,
            some (CommBufferStatus.CurrentBuffer [])⟩
          else some ⟨MobileDataState.ReadingHostInfo,
            some (CommBufferStatus.RemainLen (emptyCommState.host_info.length - maxLen))⟩)
    ∧ (∀ (Db : Type) (ops : AppDataStoreOps Db)
        (parse : List Char → Except String MobileSchema) (db : Db) (data : BufferComm),
        set_register_mobile ops parse emptyCommState db "AA" data
          = (Except.error "Mobile not found in connected devices", emptyCommState, db))
    ∧ (∀ (Db : Type) (ops : AppDataStoreOps Db) (db : Db) (data : BufferComm),
        (set_mobile_pnp_id ops emptyCommState db "AA" data).2.mobiles_connected "AA"
          = if data.remain_len = 0 then
              (match ops.get_mobile db data.payload with
               | Except.ok mobile => some ⟨MobileDataState.SaveMobileData mobile, none⟩
               | Except.error _ => some ⟨MobileDataState.WriteMobileId,
                   some (CommBufferStatus.CurrentBuffer data.payload)⟩)
            else some ⟨MobileDataState.WriteMobileId,
              some (CommBufferStatus.CurrentBuffer data.payload)⟩) :=
  session_auto_creation_amended emptyCommState "AA" rfl

/-- Claim C4.  State guard with atomicity: when the session for `addr` is absent or
in any state other than `WriteMobileInfo`, a `RegisterMobile` command returns
an error (the not-found or the wrong-state message), never invokes
`AppDataStore.add_mobile` (the store comes back unchanged for every possible
store implementation), and leaves the session table unchanged. -/
theorem register_mobile_state_guard {Db : Type} (ops : AppDataStoreOps Db)
    (parse_mobile : List Char → Except String MobileSchema) (st : MobileCommState)
    (db : Db) (addr : Address) (data : BufferComm)
    (h : ∀ cd, st.mobiles_connected addr = some cd →
      cd.mobile_state ≠ MobileDataState.WriteMobileInfo) :
    ((set_register_mobile ops parse_mobile st db addr data).1
        = Except.error "Mobile not found in connected devices"
      ∨ (set_register_mobile ops parse_mobile st db addr data).1
        = Except.error "Mobile is not writing mobile info")
    ∧ (set_register_mobile ops parse_mobile st db addr data).2.1 = st
    ∧ (set_register_mobile ops parse_mobile st db addr data).2.2 = db := by
  rcases hm : st.mobiles_connected addr with _ | cd
  · simp [set_register_mobile, hm]
  · have hne := h cd hm
    rcases cd with ⟨ms, bs⟩
    simp only [set_register_mobile, hm]
    cases ms <;> rcases bs with _ | (_ | _) <;>
      first
        | exact ⟨Or.inr rfl, rfl, rfl⟩
        | exact absurd rfl hne

/-- Claim C4, witness: the state guard at the empty session table (no session for
the address at all). -/
theorem register_mobile_state_guard_witness :
    ((set_register_mobile unitStore (fun _ => Except.error "parse") emptyCommState ()
        "AA" ⟨0, ['x']⟩).1 = Except.error "Mobile not found in connected devices"
      ∨ (set_register_mobile unitStore (fun _ => Except.error "parse") emptyCommState ()
        "AA" ⟨0, ['x']⟩).1 = Except.error "Mobile is not writing mobile info")
    ∧ (set_register_mobile unitStore (fun _ => Except.error "parse") emptyCommState ()
        "AA" ⟨0, ['x']⟩).2.1 = emptyCommState
    ∧ (set_register_mobile unitStore (fun _ => Except.error "parse") emptyCommState ()
        "AA" ⟨0, ['x']⟩).2.2 = () :=
  register_mobile_state_guard unitStore (fun _ => Except.error "parse") emptyCommState ()
    "AA" ⟨0, ['x']⟩ (fun _ hcd => Option.noConfusion hcd)

/-- Removing every path of an association list from a functional index:
pointwise, a listed path reads `none` and any other path is untouched. -/
theorem foldl_updMap_none (l : List (VPath × VDevice)) (idx : VPath → Option Address)
    (p : VPath) :
    (l.foldl (fun acc pv => updMap acc pv.1 none) idx) p
      = if p ∈ l.map Prod.fst then none else idx p := by
  induction l generalizing idx with
  | nil => simp
  | cons pv tl ih =>
    simp only [List.foldl_cons, List.map_cons, List.mem_cons]
    rw [ih]
    by_cases hmem : p ∈ List.map Prod.fst tl <;> by_cases hp : p = pv.1 <;>
      simp [updMap, hmem, hp]

/-- Disconnecting an absent address reports the not-found error and changes
nothing. -/
theorem mobile_disconnected_absent (st : MobileCommState) (addr : Address)
    (h : st.mobiles_connected addr = none) :
    mobile_disconnected st addr = (Except.error "Mobile not found", st) := by
  simp only [mobile_disconnected, h]

/-- Claim C7.  Disconnect removal and idempotence: disconnecting a connected
address succeeds and removes exactly that session; when the session was in
`ReadyToStream`, every one of its virtual-device paths is removed from
`vdevice_index` (and no other path is touched), otherwise the index is
untouched; a second disconnect of the now-absent address reports the
not-found error and changes nothing at all. -/
theorem disconnect_cleanup (st : MobileCommState) (addr : Address)
    (cd : ConnectedMobileData) (h : st.mobiles_connected addr = some cd) :
    (mobile_disconnected st addr).1 = Except.ok ()
    ∧ (mobile_disconnected st addr).2.mobiles_connected addr = none
    ∧ (∀ a, a ≠ addr →
        (mobile_disconnected st addr).2.mobiles_connected a = st.mobiles_connected a)
    ∧ (∀ vdevs, cd.mobile_state = MobileDataState.ReadyToStream vdevs →
        ∀ p, (p ∈ vdevs.map Prod.fst →
            (mobile_disconnected st addr).2.vdevice_index p = none)
          ∧ (p ∉ vdevs.map Prod.fst →
            (mobile_disconnected st addr).2.vdevice_index p = st.vdevice_index p))
    ∧ ((∀ vdevs, cd.mobile_state ≠ MobileDataState.ReadyToStream vdevs) →
        (mobile_disconnected st addr).2.vdevice_index = st.vdevice_index)
    ∧ (mobile_disconnected (mobile_disconnected st addr).2 addr).1
        = Except.error "Mobile not found"
    ∧ (mobile_disconnected (mobile_disconnected st addr).2 addr).2
        = (mobile_disconnected st addr).2 := by
  obtain ⟨ms, bs⟩ := cd
  have hconn : (mobile_disconnected st addr).2.mobiles_connected
      = updMap st.mobiles_connected addr none := by
    simp only [mobile_disconnected, h]
    cases ms <;> rfl
  have hok : (mobile_disconnected st addr).1 = Except.ok () := by
    simp only [mobile_disconnected, h]
    cases ms <;> rfl
  have hnone : (mobile_disconnected st addr).2.mobiles_connected addr = none := by
    rw [hconn, updMap_same]
  have hsecond : mobile_disconnected (mobile_disconnected st addr).2 addr
      = (Except.error "Mobile not found", (mobile_disconnected st addr).2) :=
    mobile_disconnected_absent _ _ hnone
  refine ⟨hok, hnone, ?_, ?_, ?_, by rw [hsecond], by rw [hsecond]⟩
  · intro a ha
    rw [hconn]
    simp [updMap, ha]
  · intro vdevs hvd p
    cases hms : ms with
    | ReadyToStream vd₀ =>
      rw [hms] at hvd
      injection hvd with he
      subst he
      have hicalc : (mobile_disconnected st addr).2.vdevice_index p
          = if p ∈ vd₀.map Prod.fst then none else st.vdevice_index p := by
        simp only [mobile_disconnected, h, hms]
        rw [foldl_updMap_none]
        rfl
      constructor
      · intro hp
        rw [hicalc, if_pos hp]
      · intro hp
        rw [hicalc, if_neg hp]
    | MobileConnected => rw [hms] at hvd; cases hvd
    | ReadingHostInfo => rw [hms] at hvd; cases hvd
    | WriteMobileInfo => rw [hms] at hvd; cases hvd
    | WriteMobileId => rw [hms] at hvd; cases hvd
    | SaveMobileData mob => rw [hms] at hvd; cases hvd
  · intro hn
    cases hms : ms with
    | ReadyToStream vd₀ => exact absurd (by rw [hms]) (hn vd₀)
    | MobileConnected => simp only [mobile_disconnected, h, hms]; rfl
    | ReadingHostInfo => simp only [mobile_disconnected, h, hms]; rfl
    | WriteMobileInfo => simp only [mobile_disconnected, h, hms]; rfl
    | WriteMobileId => simp only [mobile_disconnected, h, hms]; rfl
    | SaveMobileData mob => simp only [mobile_disconnected, h, hms]; rfl

/-- A concrete session table with one `ReadyToStream` session owning two
virtual devices, and one other connected peer, for the concrete disconnect
instance below. -/
def streamingCommState : MobileCommState :=
  { mobiles_connected := fun a =>
      if a = "AA" then
        some ⟨MobileDataState.ReadyToStream [("p1", ⟨⟩), ("p2", ⟨⟩)],
          some (CommBufferStatus.CurrentBuffer [])⟩
      else if a = "BB" then some ⟨MobileDataState.MobileConnected, none⟩
      else none,
    vdevice_index := fun p => if p = "p1" ∨ p = "p2" then some "AA" else none,
    host_info := ['h', 'o', 's', 't'] }

/-- Claim C7, witness: the disconnect theorem at the concrete two-session table. -/
theorem disconnect_cleanup_witness :
    (mobile_disconnected streamingCommState "AA").1 = Except.ok ()
    ∧ (mobile_disconnected streamingCommState "AA").2.mobiles_connected "AA" = none
    ∧ (∀ a, a ≠ "AA" →
        (mobile_disconnected streamingCommState "AA").2.mobiles_connected a
          = streamingCommState.mobiles_connected a)
    ∧ (∀ vdevs,
        (⟨MobileDataState.ReadyToStream [("p1", ⟨⟩), ("p2", ⟨⟩)],
          some (CommBufferStatus.CurrentBuffer [])⟩ : ConnectedMobileData).mobile_state
          = MobileDataState.ReadyToStream vdevs →
        ∀ p, (p ∈ vdevs.map Prod.fst →
            (mobile_disconnected streamingCommState "AA").2.vdevice_index p = none)
          ∧ (p ∉ vdevs.map Prod.fst →
            (mobile_disconnected streamingCommState "AA").2.vdevice_index p
              = streamingCommState.vdevice_index p))
    ∧ ((∀ vdevs,
        (⟨MobileDataState.ReadyToStream [("p1", ⟨⟩), ("p2", ⟨⟩)],
          some (CommBufferStatus.CurrentBuffer [])⟩ : ConnectedMobileData).mobile_state
          ≠ MobileDataState.ReadyToStream vdevs) →
        (mobile_disconnected streamingCommState "AA").2.vdevice_index
          = streamingCommState.vdevice_index)
    ∧ (mobile_disconnected (mobile_disconnected streamingCommState "AA").2 "AA").1
        = Except.error "Mobile not found"
    ∧ (mobile_disconnected (mobile_disconnected streamingCommState "AA").2 "AA").2
        = (mobile_disconnected streamingCommState "AA").2 :=
  disconnect_cleanup streamingCommState "AA"
    ⟨MobileDataState.ReadyToStream [("p1", ⟨⟩), ("p2", ⟨⟩)],
      some (CommBufferStatus.CurrentBuffer [])⟩ (by simp [streamingCommState])

end WebcamDirect
